import Mathlib

/-!
Verification of the kan storage/health glue layer.

Shallow embedding conventions:
* JavaScript strings are modelled as `List Char` (`JStr`), so that string
  operations (`split`, `startsWith`, `slice`, regex strips) become ordinary
  list functions amenable to induction.
* The process environment is a record of `Option JStr` values; a variable that
  is unset is `none`, and JavaScript truthiness of an environment value is
  `truthy` (set and nonempty).
* Node's `path.resolve` is modelled POSIX-style (`path.sep = '/'`): arguments
  are split on slashes, an absolute argument resets the accumulator, and the
  result is normalised by dropping empty and `.` segments and letting `..`
  remove the previous segment.  A resolved absolute path is represented by its
  list of segments, rendered back to a string by `renderAbs` when the source
  compares path strings.
* I/O is modelled by oracles passed as parameters (`stat`, `unlink`, `fetch`,
  the WHATWG URL parser, `decodeURIComponent`) and handlers return the list of
  filesystem / network effects they perform together with their response.
  Response headers (content type, cache control, content disposition) are
  elided: no claim mentions them.
-/

abbrev JStr := List Char

def jstr (s : String) : JStr := s.data

/-- JavaScript truthiness of an (optional) environment string: set and nonempty. -/
def truthy : Option JStr → Bool
  | none => false
  | some s => !s.isEmpty

/-- `String.prototype.toLowerCase` restricted to the ASCII range used here. -/
def lowerJ (s : JStr) : JStr := s.map Char.toLower

/-- The environment variables read by the reviewed files.  `none` models an
unset variable. -/
structure Env where
  KAN_STORAGE_DRIVER : Option JStr := none
  KAN_STORAGE_DIR : Option JStr := none
  S3_ENDPOINT : Option JStr := none
  S3_ACCESS_KEY_ID : Option JStr := none
  S3_SECRET_ACCESS_KEY : Option JStr := none
  NEXT_PUBLIC_STORAGE_URL : Option JStr := none
  NEXT_PUBLIC_BASE_URL : Option JStr := none
  NEXT_PUBLIC_UPLOADS_PATH : Option JStr := none
deriving DecidableEq

/-- Fallback of `getStorageDriver` (s3.ts lines 46-54): `S3_ENDPOINT` wins,
then `KAN_STORAGE_DIR`, default `"s3"`. -/
def storageFallback (e : Env) : JStr :=
  if truthy e.S3_ENDPOINT then jstr "s3"
  else if truthy e.KAN_STORAGE_DIR then jstr "fs"
  else jstr "s3"

/-- Shared `getStorageDriver` from `packages/shared/src/utils/s3.ts` lines
40-55: the explicit driver is lowercased and used only when it is exactly
`"fs"` or `"s3"`, otherwise the fallback runs. -/
def getStorageDriver (e : Env) : JStr :=
  match e.KAN_STORAGE_DRIVER with
  | some d =>
    let l := lowerJ d
    if l == jstr "fs" || l == jstr "s3" then l else storageFallback e
  | none => storageFallback e

/-- Local driver resolution duplicated in the upload file server and the
attachment downloader:
`configuredDriver ?? (storageDir ? "fs" : s3Endpoint ? "s3" : "s3")`.
The configured value is used verbatim (no lowercasing, no validation), and in
the fallback `KAN_STORAGE_DIR` is consulted before `S3_ENDPOINT` (whose branch
is dead: both arms are `"s3"`). -/
def localDriver (e : Env) : JStr :=
  match e.KAN_STORAGE_DRIVER with
  | some d => d
  | none =>
    if truthy e.KAN_STORAGE_DIR then jstr "fs"
    else if truthy e.S3_ENDPOINT then jstr "s3"
    else jstr "s3"

/-! ### Health endpoint (part_001) -/

/-- Whether storage counts as configured (part_001 lines 104-111). -/
def storageConfiguredFlag (e : Env) : Bool :=
  if getStorageDriver e == jstr "fs" then truthy e.KAN_STORAGE_DIR
  else truthy e.S3_ENDPOINT && truthy e.S3_ACCESS_KEY_ID &&
    truthy e.S3_SECRET_ACCESS_KEY

/-- `checkStorageConnection` (part_001 lines 38-77).  `fsOk` is the outcome of
the `mkdir`/`access` probe of the uploads root, `s3Ok` the outcome of the two
`HeadBucket` calls; both are oracles for I/O the embedding does not perform. -/
def checkStorageConnection (e : Env) (fsOk s3Ok : Bool) : Bool :=
  if getStorageDriver e == jstr "fs" then
    if !truthy e.KAN_STORAGE_DIR then false else fsOk
  else
    if !(truthy e.S3_ENDPOINT && truthy e.S3_ACCESS_KEY_ID &&
        truthy e.S3_SECRET_ACCESS_KEY) then true
    else s3Ok

structure HealthResp where
  status : JStr
  database : JStr
  storage : JStr
deriving DecidableEq

/-- The `/health` query (part_001 lines 100-129).  `dbHealthy` is the outcome
of `checkDatabaseConnection`. -/
def healthQuery (e : Env) (dbHealthy fsOk s3Ok : Bool) : HealthResp :=
  let storageHealthy := checkStorageConnection e fsOk s3Ok
  let conf := storageConfiguredFlag e
  { status := if dbHealthy && (!conf || storageHealthy) then jstr "ok" else jstr "error"
    database := if dbHealthy then jstr "ok" else jstr "error"
    storage :=
      if !conf then jstr "not_configured"
      else if storageHealthy then jstr "ok" else jstr "error" }

/-! ### Stats endpoint (part_001 lines 161-222) -/

/-- One abstract count per repository call made by the stats endpoint. -/
structure DbCounts where
  userCount : Nat
  workspaceCount : Nat
  boardCount : Nat
  listCount : Nat
  cardCount : Nat
  cardCommentCount : Nat
  checklistItemCount : Nat
  checklistCount : Nat
  labelCount : Nat
  cardAttachmentCount : Nat
  cardActivityCount : Nat
  memberActiveCount : Nat
  inviteLinkActiveCount : Nat
  importCount : Nat
deriving DecidableEq

/-- The sixteen-element array awaited by `Promise.all` (part_001 lines
180-197), in source order. -/
def statsResults (db : DbCounts) : List Nat :=
  [db.userCount, db.workspaceCount, db.boardCount, db.listCount, db.cardCount,
   db.cardCommentCount, db.checklistItemCount, db.checklistCount,
   db.labelCount, db.cardAttachmentCount, db.cardActivityCount,
   db.memberActiveCount, db.inviteLinkActiveCount, db.importCount,
   db.memberActiveCount, db.cardActivityCount]

structure StatsResponse where
  users : Nat
  workspaces : Nat
  boards : Nat
  lists : Nat
  cards : Nat
  cardComments : Nat
  checklistItems : Nat
  checklists : Nat
  labels : Nat
  cardAttachments : Nat
  cardActivities : Nat
  activeMembers : Nat
  activeInviteLinks : Nat
  imports : Nat
  cardActivityLogs : Nat
deriving DecidableEq

/-- The stats query: the fifteen-name array destructuring binds each name to
the element of `statsResults` at its position, dropping the sixteenth
element, and the response object is then assembled (part_001 lines 164-215). -/
def statsQuery (db : DbCounts) : StatsResponse :=
  let rs := statsResults db
  { users := rs.getD 0 0
    workspaces := rs.getD 1 0
    boards := rs.getD 2 0
    lists := rs.getD 3 0
    cards := rs.getD 4 0
    cardComments := rs.getD 5 0
    checklistItems := rs.getD 6 0
    checklists := rs.getD 7 0
    labels := rs.getD 8 0
    cardAttachments := rs.getD 9 0
    cardActivities := rs.getD 10 0
    activeMembers := rs.getD 11 0
    activeInviteLinks := rs.getD 12 0
    imports := rs.getD 13 0
    cardActivityLogs := rs.getD 14 0 }

/-! ### URL building (s3.ts lines 12-38 and 57-69) -/

/-- `String.prototype.trim`: strip whitespace from both ends. -/
def jsTrim (s : JStr) : JStr :=
  ((s.dropWhile Char.isWhitespace).reverse.dropWhile Char.isWhitespace).reverse

/-- `normalizePublicPath` (s3.ts lines 12-24): defaulted, trimmed, `/` becomes
empty, a leading slash is ensured and a single trailing slash is removed. -/
def normalizePublicPath (pathname : Option JStr) (fallback : JStr) : JStr :=
  let trimmed := jsTrim (pathname.getD [])
  let value := if trimmed.isEmpty then fallback else trimmed
  if value == jstr "/" then []
  else
    let withLeadingSlash := if value.head? == some '/' then value else '/' :: value
    if withLeadingSlash.getLast? == some '/' then withLeadingSlash.dropLast
    else withLeadingSlash

/-- `p.replace(/^\x2f+/, "")`: drop leading slashes. -/
def stripLeadingSlashes (s : JStr) : JStr := s.dropWhile (· == '/')

/-- `p.replace(/\x2f+$/, "")`: drop trailing slashes. -/
def stripTrailingSlashes (s : JStr) : JStr := (s.reverse.dropWhile (· == '/')).reverse

def stripBoth (s : JStr) : JStr := stripTrailingSlashes (stripLeadingSlashes s)

/-- `cleaned.join("/")`. -/
def joinSegs : List JStr → JStr
  | [] => []
  | [s] => s
  | s :: t :: rest => s ++ '/' :: joinSegs (t :: rest)

/-- `joinUrl` (s3.ts lines 26-38): the base loses a single trailing slash, the
parts lose empty entries and surrounding slashes, and the survivors are joined
with single slashes. -/
def joinUrl (base : JStr) (parts : List JStr) : JStr :=
  let trimmedBase := if base.getLast? == some '/' then base.dropLast else base
  let cleaned :=
    ((parts.filter (fun p => !p.isEmpty)).map stripBoth).filter
      (fun p => !p.isEmpty)
  if cleaned.isEmpty then trimmedBase else trimmedBase ++ '/' :: joinSegs cleaned

def getUploadsPublicPath (e : Env) : JStr :=
  normalizePublicPath e.NEXT_PUBLIC_UPLOADS_PATH (jstr "/uploads")

/-- `getPublicObjectUrl` (s3.ts lines 61-69): `null` when the storage URL is
falsy, otherwise the join of storage URL, uploads path, bucket and key. -/
def getPublicObjectUrl (e : Env) (bucket key : JStr) : Option JStr :=
  match e.NEXT_PUBLIC_STORAGE_URL with
  | none => none
  | some u =>
    if u.isEmpty then none
    else some (joinUrl u [getUploadsPublicPath e, bucket, key])

inductive DlUrl where
  | publicUrl (u : JStr)
  | s3Presigned (bucket key : JStr)
deriving DecidableEq

/-- `generateDownloadUrl` (s3.ts lines 111-134): in fs mode the public object
URL (an error when the storage URL is not configured), otherwise a presigned
S3 GET URL, abstracted as `s3Presigned`. -/
def generateDownloadUrl (e : Env) (bucket key : JStr) : Except JStr DlUrl :=
  if getStorageDriver e == jstr "fs" then
    match getPublicObjectUrl e bucket key with
    | some u => .ok (.publicUrl u)
    | none => .error (jstr "Storage URL not configured")
  else .ok (.s3Presigned bucket key)

/-- Two consecutive slashes occur somewhere in the string. -/
def hasDoubleSlash : JStr → Bool
  | [] => false
  | [_] => false
  | a :: b :: t => (a == '/' && b == '/') || hasDoubleSlash (b :: t)

/-! ### Path resolution (Node `path.resolve`, POSIX) -/

/-- `String.prototype.split("/")`, accumulator-based. -/
def splitSlashAux : JStr → JStr → List JStr
  | [], acc => [acc.reverse]
  | c :: rest, acc =>
    if c == '/' then acc.reverse :: splitSlashAux rest []
    else splitSlashAux rest (c :: acc)

def splitSlash (s : JStr) : List JStr := splitSlashAux s []

/-- One step of path normalisation: empty and `.` segments vanish, `..` drops
the previous segment (a no-op at the root), anything else is kept. -/
def normStep (acc : List JStr) (seg : JStr) : List JStr :=
  if seg.isEmpty || seg == jstr "." then acc
  else if seg == jstr ".." then acc.dropLast
  else acc ++ [seg]

def normSegs (segs : List JStr) : List JStr := segs.foldl normStep []

/-- Node's `path.resolve(cwd-relative)`: arguments are processed left to
right, an argument starting with `/` resets the accumulated segments, and the
concatenation is normalised.  The result is the segment list of an absolute
path. -/
def resolveSegs (cwd : JStr) (args : List JStr) : List JStr :=
  normSegs (args.foldl
    (fun acc a => if a.head? == some '/' then splitSlash a else acc ++ splitSlash a)
    (splitSlash cwd))

/-- Render an absolute path from its segments (`path.sep = '/'`). -/
def renderAbs (segs : List JStr) : JStr := '/' :: joinSegs segs

/-- The bucket regex `[a-zA-Z0-9._-]+` of the upload and attachment
handlers. -/
def bucketOk (b : JStr) : Bool :=
  !b.isEmpty && b.all (fun c => c.isAlphanum || c == '.' || c == '_' || c == '-')

/-- A rejected key segment: empty, `.` or `..`. -/
def badSeg (p : JStr) : Bool := p.isEmpty || p == jstr "." || p == jstr ".."

inductive Method where
  | GET
  | HEAD
  | POST
deriving DecidableEq

/-- A Node `fs` error, identified by its `code` property. -/
structure FsError where
  code : JStr
deriving DecidableEq

structure FileStat where
  isFile : Bool
  size : Nat
deriving DecidableEq

/-- The fields of a parsed WHATWG URL the handlers read.  URL parsing itself
is the host platform's; handlers take the parser as an oracle. -/
structure URLRec where
  protocol : JStr
  origin : JStr
  pathname : JStr
deriving DecidableEq

/-- Filesystem and network effects a handler performs, in order. -/
inductive Eff where
  | statAt (p : List JStr)
  | readAt (p : List JStr)
  | unlinkAt (p : List JStr)
  | fetchTo (u : URLRec)
  | s3Delete (bucket key : JStr)
deriving DecidableEq

/-- The local filesystem paths touched by a trace. -/
def accessedPaths : List Eff → List (List JStr)
  | [] => []
  | Eff.statAt p :: t => p :: accessedPaths t
  | Eff.readAt p :: t => p :: accessedPaths t
  | Eff.unlinkAt p :: t => p :: accessedPaths t
  | _ :: t => accessedPaths t

/-- `path.resolve(storageDir, "uploads")`. -/
def uploadsRootFor (cwd dir : JStr) : List JStr :=
  resolveSegs cwd [dir, jstr "uploads"]

/-- `path.resolve(uploadsRoot, bucket, ...keyParts)`: the root is passed back
as the rendered absolute string, exactly as in the source. -/
def resolveUploadPath (cwd : JStr) (root : List JStr) (bucket : JStr)
    (keyParts : List JStr) : List JStr :=
  resolveSegs cwd (renderAbs root :: bucket :: keyParts)

/-- `filePath.startsWith(uploadsRoot + path.sep)`, on rendered paths. -/
def uploadGuard (root fp : List JStr) : Bool :=
  (renderAbs root ++ ['/']).isPrefixOf (renderAbs fp)

/-- `root` is a strict ancestor of `p` (segment-wise proper prefix). -/
def properDesc (root p : List JStr) : Prop := root <+: p ∧ root ≠ p

/-- Well-formed path segments: nonempty and slash-free, as produced by
`resolveSegs`. -/
def goodSegs (l : List JStr) : Prop := ∀ s ∈ l, s ≠ [] ∧ '/' ∉ s

inductive UResp where
  | json (status : Nat)
  | headOk (size : Nat)
  | fileStream (p : List JStr) (size : Nat)
deriving DecidableEq

/-- The upload file server (part_002 lines 33-119).  `parts` is the `path`
catch-all query; `statO` is the filesystem oracle for `stat`.  Streaming is
represented by the `readAt` effect and the `fileStream` response; headers and
mid-stream errors are elided. -/
def uploadHandler (e : Env) (cwd : JStr) (m : Method) (parts : List JStr)
    (statO : List JStr → Except FsError FileStat) : List Eff × UResp :=
  if m != Method.GET && m != Method.HEAD then ([], .json 405)
  else if localDriver e != jstr "fs" then ([], .json 404)
  else if !truthy e.KAN_STORAGE_DIR then ([], .json 500)
  else
    let dir := e.KAN_STORAGE_DIR.getD []
    let bucket := parts.headD []
    let keyParts := parts.tail
    if bucket.isEmpty || keyParts.isEmpty then ([], .json 400)
    else if !bucketOk bucket then ([], .json 400)
    else if keyParts.any badSeg then ([], .json 400)
    else
      let root := uploadsRootFor cwd dir
      let fp := resolveUploadPath cwd root bucket keyParts
      if !uploadGuard root fp then ([], .json 400)
      else
        match statO fp with
        | .error err =>
          if err.code == jstr "ENOENT" then ([.statAt fp], .json 404)
          else ([.statAt fp], .json 500)
        | .ok st =>
          if !st.isFile then ([.statAt fp], .json 404)
          else
            match m with
            | .HEAD => ([.statAt fp], .headOk st.size)
            | _ => ([.statAt fp, .readAt fp], .fileStream fp st.size)

/-- The upstream fetch outcome: `none` models a thrown fetch. -/
structure Fetched where
  status : Nat
  hasBody : Bool
deriving DecidableEq

inductive AResp where
  | json (status : Nat)
  | localStream (p : List JStr) (size : Nat)
  | upstreamStream
deriving DecidableEq

/-- `getAllowedOrigins` (part_003 lines 61-77): the origins of the parseable,
nonempty candidates; the `Set` is modelled as the list of parsed origins
(only emptiness and membership are consulted). -/
def getAllowedOrigins (e : Env) (parser : JStr → Option URLRec) : List JStr :=
  (([e.NEXT_PUBLIC_STORAGE_URL, e.NEXT_PUBLIC_BASE_URL].filterMap id).filter
      (fun v => !v.isEmpty)).filterMap
    (fun c => (parser c).map URLRec.origin)

/-- `normalizeUploadsPath` (part_003 lines 11-23), textually identical to
`normalizePublicPath` with the fallback fixed to `"/uploads"`. -/
def normalizeUploadsPath (p : Option JStr) : JStr :=
  normalizePublicPath p (jstr "/uploads")

/-- The remote-fetch fallback of the attachment downloader (part_003 lines
183-212): a thrown fetch is 500, a non-OK upstream status is passed through,
a missing body is 502, otherwise the body is streamed. -/
def attachmentFetch (u : URLRec) (fetchO : URLRec → Option Fetched) :
    List Eff × AResp :=
  match fetchO u with
  | none => ([.fetchTo u], .json 500)
  | some f =>
    if 200 ≤ f.status ∧ f.status < 300 then
      if f.hasBody then ([.fetchTo u], .upstreamStream)
      else ([.fetchTo u], .json 502)
    else ([.fetchTo u], .json f.status)

/-- The fs-mode block of the attachment downloader (part_003 lines 120-181):
serve a URL under the public uploads path from disk, with the same
bucket/key validation and traversal guard as the upload file server, falling
through to the remote fetch when the URL is not under the uploads path. -/
def attachmentLocal (e : Env) (cwd : JStr) (dec : JStr → JStr) (u : URLRec)
    (statO : List JStr → Except FsError FileStat)
    (fetchO : URLRec → Option Fetched) : List Eff × AResp :=
  if !truthy e.KAN_STORAGE_DIR then ([], .json 500)
  else
    let dir := e.KAN_STORAGE_DIR.getD []
    let up := normalizeUploadsPath e.NEXT_PUBLIC_UPLOADS_PATH
    if !up.isEmpty && (up ++ ['/']).isPrefixOf u.pathname then
      let parts :=
        ((splitSlash (u.pathname.drop (up.length + 1))).filter
          (fun p => !p.isEmpty)).map dec
      let bucket := parts.headD []
      let keyParts := parts.tail
      if bucket.isEmpty || keyParts.isEmpty then ([], .json 400)
      else if !bucketOk bucket then ([], .json 400)
      else if keyParts.any badSeg then ([], .json 400)
      else
        let root := uploadsRootFor cwd dir
        let fp := resolveUploadPath cwd root bucket keyParts
        if !uploadGuard root fp then ([], .json 400)
        else
          match statO fp with
          | .error err =>
            if err.code == jstr "ENOENT" then ([.statAt fp], .json 404)
            else ([.statAt fp], .json 500)
          | .ok st =>
            if !st.isFile then ([.statAt fp], .json 404)
            else ([.statAt fp, .readAt fp], .localStream fp st.size)
    else attachmentFetch u fetchO

/-- The attachment downloader (part_003 lines 79-213).  `parser` models the
WHATWG URL parser, `dec` models `decodeURIComponent`; the rate-limit wrapper
and response headers are elided. -/
def attachmentHandler (e : Env) (cwd : JStr) (parser : JStr → Option URLRec)
    (dec : JStr → JStr) (m : Method) (urlParam fnParam : Option JStr)
    (statO : List JStr → Except FsError FileStat)
    (fetchO : URLRec → Option Fetched) : List Eff × AResp :=
  if m != Method.GET then ([], .json 405)
  else
    match urlParam with
    | none => ([], .json 400)
    | some urlStr =>
      match parser urlStr with
      | none => ([], .json 400)
      | some u =>
        if u.protocol != jstr "http:" && u.protocol != jstr "https:" then
          ([], .json 400)
        else if !(getAllowedOrigins e parser).isEmpty &&
            !(getAllowedOrigins e parser).contains u.origin then ([], .json 400)
        else if localDriver e == jstr "fs" then
          attachmentLocal e cwd dec u statO fetchO
        else attachmentFetch u fetchO

inductive DelErr where
  | noStorageDir
  | invalidKey
  | unlinkFailed (err : FsError)
deriving DecidableEq

/-- `path.resolve(uploadsRoot, bucket, ...key.split("/").filter(Boolean))`. -/
def deleteCandidate (cwd : JStr) (root : List JStr) (bucket key : JStr) :
    List JStr :=
  resolveSegs cwd (renderAbs root :: bucket ::
    (splitSlash key).filter (fun p => !p.isEmpty))

/-- The deleteObject guard (s3.ts lines 154-159): proceed when the candidate
string starts with `uploadsRoot + path.sep` or equals `uploadsRoot`. -/
def deleteGuard (root cand : List JStr) : Bool :=
  uploadGuard root cand || (renderAbs cand == renderAbs root)

/-- `deleteObject` (s3.ts lines 136-181).  `unlinkO` is the `unlink` oracle
(`none` is success); an `ENOENT` failure is swallowed, any other failure is
re-raised, and the s3 branch is the abstract `s3Delete` effect. -/
def deleteObject (e : Env) (cwd bucket key : JStr)
    (unlinkO : List JStr → Option FsError) : List Eff × Except DelErr Unit :=
  if getStorageDriver e == jstr "fs" then
    if !truthy e.KAN_STORAGE_DIR then ([], .error .noStorageDir)
    else
      let root := uploadsRootFor cwd (e.KAN_STORAGE_DIR.getD [])
      let cand := deleteCandidate cwd root bucket key
      if !deleteGuard root cand then ([], .error .invalidKey)
      else
        match unlinkO cand with
        | none => ([.unlinkAt cand], .ok ())
        | some err =>
          if err.code == jstr "ENOENT" then ([.unlinkAt cand], .ok ())
          else ([.unlinkAt cand], .error (.unlinkFailed err))
  else ([.s3Delete bucket key], .ok ())

/-! ### Theorems -/

theorem isEmpty_false_of_ne {α : Type} {s : List α} (h : s ≠ []) :
    s.isEmpty = false := by
  cases s
  · exact absurd rfl h
  · rfl

theorem dropWhile_slash_of_head {s : JStr} (h : s.head? ≠ some '/') :
    s.dropWhile (· == '/') = s := by
  cases s with
  | nil => rfl
  | cons a t =>
    have ha : a ≠ '/' := by
      intro h0
      exact h (by simp [h0])
    have hb : (a == '/') = false := by
      simp only [beq_eq_false_iff_ne, ne_eq]
      exact ha
    simp [List.dropWhile, hb]

theorem stripTrailingSlashes_of_getLast {s : JStr} (h : s.getLast? ≠ some '/') :
    stripTrailingSlashes s = s := by
  unfold stripTrailingSlashes
  rw [dropWhile_slash_of_head (by rwa [List.head?_reverse]), List.reverse_reverse]

theorem stripBoth_clean {s : JStr} (h1 : s.head? ≠ some '/')
    (h2 : s.getLast? ≠ some '/') : stripBoth s = s := by
  unfold stripBoth stripLeadingSlashes
  rw [dropWhile_slash_of_head h1, stripTrailingSlashes_of_getLast h2]

/-- C3 (amended): with `KAN_STORAGE_DRIVER` unset, the shared resolver prefers
`S3_ENDPOINT` and yields `"s3"` whenever it is set, while the local resolvers
of the upload file server and attachment downloader prefer `KAN_STORAGE_DIR`
and yield `"fs"` whenever it is set; the two agree in the remaining cases:
endpoint set and dir unset gives `"s3"` everywhere, endpoint unset and dir set
gives `"fs"` everywhere, and all unset gives `"s3"` everywhere. -/
theorem claim3_amended (e : Env) :
    (e.KAN_STORAGE_DRIVER = none → truthy e.S3_ENDPOINT = true →
      getStorageDriver e = jstr "s3" ∧
      (truthy e.KAN_STORAGE_DIR = false → localDriver e = jstr "s3") ∧
      (truthy e.KAN_STORAGE_DIR = true → localDriver e = jstr "fs")) ∧
    (e.KAN_STORAGE_DRIVER = none → truthy e.S3_ENDPOINT = false →
      truthy e.KAN_STORAGE_DIR = true →
      getStorageDriver e = jstr "fs" ∧ localDriver e = jstr "fs") ∧
    (e.KAN_STORAGE_DRIVER = none → truthy e.S3_ENDPOINT = false →
      truthy e.KAN_STORAGE_DIR = false →
      getStorageDriver e = jstr "s3" ∧ localDriver e = jstr "s3") := by
  refine ⟨?_, ?_, ?_⟩
  · intro h1 h2
    refine ⟨?_, ?_, ?_⟩
    · simp [getStorageDriver, storageFallback, h1, h2]
    · intro h3
      simp [localDriver, h1, h3]
    · intro h3
      simp [localDriver, h1, h3]
  · intro h1 h2 h3
    constructor <;>
      simp [getStorageDriver, localDriver, storageFallback, h1, h2, h3]
  · intro h1 h2 h3
    constructor <;>
      simp [getStorageDriver, localDriver, storageFallback, h1, h2, h3]

/-- C3 (counterexample): with `KAN_STORAGE_DRIVER` unset and both
`S3_ENDPOINT` and `KAN_STORAGE_DIR` set, the local resolvers used by the
upload file server and attachment downloader resolve to `"fs"`, not `"s3"` as
the claim states. -/
theorem claim3_counterexample :
    localDriver
      { KAN_STORAGE_DIR := some (jstr "/data")
        S3_ENDPOINT := some (jstr "http://minio:9000") } = jstr "fs" ∧
    jstr "fs" ≠ jstr "s3" := by
  constructor
  · rfl
  · decide

/-- C3 (witness): concrete instantiation of the amended claim with the driver
unset, the endpoint set and the storage dir set. -/
theorem claim3_witness :
    getStorageDriver
      { KAN_STORAGE_DIR := some (jstr "/data")
        S3_ENDPOINT := some (jstr "http://minio:9000") } = jstr "s3" ∧
    localDriver
      { KAN_STORAGE_DIR := some (jstr "/data")
        S3_ENDPOINT := some (jstr "http://minio:9000") } = jstr "fs" := by
  have h := claim3_amended
    { KAN_STORAGE_DIR := some (jstr "/data")
      S3_ENDPOINT := some (jstr "http://minio:9000") }
  exact ⟨(h.1 rfl (by decide)).1, (h.1 rfl (by decide)).2.2 (by decide)⟩

/-- C4 (amended): the shared `getStorageDriver` and the local resolver of the
upload file server and attachment downloader agree whenever
`KAN_STORAGE_DRIVER` is exactly `"fs"` or `"s3"`, or is unset and
`S3_ENDPOINT` and `KAN_STORAGE_DIR` are not both set; they diverge when the
driver is unset with both set (local prefers `"fs"`, shared prefers `"s3"`),
and when the driver variable holds any other value (mixed case, invalid, or
empty), which the local resolver returns verbatim while the shared one
lowercases or falls back. -/
theorem claim4_amended (e : Env) :
    e.KAN_STORAGE_DRIVER = some (jstr "fs") ∨
    e.KAN_STORAGE_DRIVER = some (jstr "s3") ∨
    (e.KAN_STORAGE_DRIVER = none ∧
      ¬(truthy e.S3_ENDPOINT = true ∧ truthy e.KAN_STORAGE_DIR = true)) →
    localDriver e = getStorageDriver e := by
  rintro (h | h | ⟨h, hnb⟩)
  · simp [localDriver, getStorageDriver, h, lowerJ, jstr]
  · simp [localDriver, getStorageDriver, h, lowerJ, jstr]
  · rcases he : truthy e.S3_ENDPOINT with _ | _ <;>
      rcases hd : truthy e.KAN_STORAGE_DIR with _ | _ <;>
      simp [localDriver, getStorageDriver, storageFallback, h, he, hd] at hnb ⊢

/-- C4 (counterexample): with the driver unset and both `S3_ENDPOINT` and
`KAN_STORAGE_DIR` set, the shared resolver and the local resolver disagree. -/
theorem claim4_counterexample :
    localDriver
      { KAN_STORAGE_DIR := some (jstr "/data")
        S3_ENDPOINT := some (jstr "http://minio:9000") } ≠
    getStorageDriver
      { KAN_STORAGE_DIR := some (jstr "/data")
        S3_ENDPOINT := some (jstr "http://minio:9000") } := by
  decide

/-- C4 (witness): concrete instantiation of the amended claim at an explicit
`"fs"` driver value. -/
theorem claim4_witness :
    localDriver { KAN_STORAGE_DRIVER := some (jstr "fs") } =
      getStorageDriver { KAN_STORAGE_DRIVER := some (jstr "fs") } :=
  claim4_amended { KAN_STORAGE_DRIVER := some (jstr "fs") } (Or.inl rfl)

/-- The shared resolver only ever returns `"fs"` or `"s3"`. -/
theorem getStorageDriver_cases (e : Env) :
    getStorageDriver e = jstr "fs" ∨ getStorageDriver e = jstr "s3" := by
  unfold getStorageDriver storageFallback
  rcases e.KAN_STORAGE_DRIVER with _ | d
  · dsimp only
    split
    · right; rfl
    · split
      · left; rfl
      · right; rfl
  · dsimp only
    rcases h : (lowerJ d == jstr "fs" || lowerJ d == jstr "s3") with _ | _
    · simp only [h, Bool.false_eq_true, if_false]
      split
      · right; rfl
      · split
        · left; rfl
        · right; rfl
    · simp only [h, if_true]
      rcases Bool.or_eq_true_iff.mp h with h1 | h1
      · left; exact eq_of_beq h1
      · right; exact eq_of_beq h1

/-- C5: the health endpoint reports status `"ok"` exactly when the database
check succeeds and either storage is not configured (fs driver with
`KAN_STORAGE_DIR` unset or empty, or s3 driver with any of `S3_ENDPOINT`,
`S3_ACCESS_KEY_ID`, `S3_SECRET_ACCESS_KEY` unset or empty) or the storage
connectivity check succeeds; otherwise it reports `"error"`. -/
theorem claim5_health_status (e : Env) (dbHealthy fsOk s3Ok : Bool) :
    (healthQuery e dbHealthy fsOk s3Ok).status = jstr "ok" ↔
      (dbHealthy = true ∧
        (((getStorageDriver e = jstr "fs" ∧ truthy e.KAN_STORAGE_DIR = false) ∨
          (getStorageDriver e = jstr "s3" ∧
            (truthy e.S3_ENDPOINT = false ∨ truthy e.S3_ACCESS_KEY_ID = false ∨
             truthy e.S3_SECRET_ACCESS_KEY = false))) ∨
         checkStorageConnection e fsOk s3Ok = true)) := by
  rcases getStorageDriver_cases e with hd | hd <;>
    cases dbHealthy <;>
    rcases h1 : truthy e.KAN_STORAGE_DIR with _ | _ <;>
    rcases h2 : truthy e.S3_ENDPOINT with _ | _ <;>
    rcases h3 : truthy e.S3_ACCESS_KEY_ID with _ | _ <;>
    rcases h4 : truthy e.S3_SECRET_ACCESS_KEY with _ | _ <;>
    simp [healthQuery, storageConfiguredFlag, checkStorageConnection, hd, h1,
      h2, h3, h4, jstr]

/-- C7: the stats endpoint's fifteen-name destructuring of the sixteen-element
`Promise.all` array drops the final element, so `cardActivityLogs` is bound to
the fifteenth element, `memberRepo.getActiveCount`, and for every database
state the response satisfies `cardActivityLogs = activeMembers`. -/
theorem claim7_stats_mislabel (db : DbCounts) :
    (statsQuery db).cardActivityLogs = db.memberActiveCount ∧
    (statsQuery db).cardActivityLogs = (statsQuery db).activeMembers := by
  exact ⟨rfl, rfl⟩

/-- C6 (amended): in fs mode with the storage URL set, `generateDownloadUrl`
returns the storage URL, the cleaned uploads path, the bucket and the key,
each exactly once in that order with a single slash inserted between
components, provided the storage URL does not end in a slash and the bucket
and key are nonempty without leading or trailing slashes; doubled slashes can
still enter the result from inside a component or from a storage URL ending in
several slashes, because cleaning strips only surrounding slashes and the base
loses only one trailing slash. -/
theorem claim6_amended (e : Env) (bucket key u us : JStr)
    (hdrv : getStorageDriver e = jstr "fs")
    (hurl : e.NEXT_PUBLIC_STORAGE_URL = some u)
    (hu0 : u ≠ []) (hu1 : u.getLast? ≠ some '/')
    (hb0 : bucket ≠ []) (hb1 : bucket.head? ≠ some '/')
    (hb2 : bucket.getLast? ≠ some '/')
    (hk0 : key ≠ []) (hk1 : key.head? ≠ some '/')
    (hk2 : key.getLast? ≠ some '/')
    (hus : stripBoth (getUploadsPublicPath e) = us) (husne : us ≠ []) :
    generateDownloadUrl e bucket key =
      .ok (.publicUrl (u ++ '/' :: (us ++ '/' :: (bucket ++ '/' :: key)))) := by
  have hup : getUploadsPublicPath e ≠ [] := by
    intro h0
    apply husne
    rw [← hus, h0]
    rfl
  have hbase : (u.getLast? == some '/') = false := by
    simp only [beq_eq_false_iff_ne, ne_eq]
    exact hu1
  have hfil1 :
      List.filter (fun p => !p.isEmpty) [getUploadsPublicPath e, bucket, key] =
        [getUploadsPublicPath e, bucket, key] := by
    simp [List.filter, isEmpty_false_of_ne hup, isEmpty_false_of_ne hb0,
      isEmpty_false_of_ne hk0]
  have hmap :
      List.map stripBoth [getUploadsPublicPath e, bucket, key] =
        [us, bucket, key] := by
    simp [List.map, hus, stripBoth_clean hb1 hb2, stripBoth_clean hk1 hk2]
  have hfil2 :
      List.filter (fun p => !p.isEmpty) [us, bucket, key] = [us, bucket, key] := by
    simp [List.filter, isEmpty_false_of_ne husne, isEmpty_false_of_ne hb0,
      isEmpty_false_of_ne hk0]
  have hjoin : joinUrl u [getUploadsPublicPath e, bucket, key] =
      u ++ '/' :: (us ++ '/' :: (bucket ++ '/' :: key)) := by
    unfold joinUrl
    rw [hfil1, hmap, hfil2, hbase]
    rfl
  simp only [generateDownloadUrl, hdrv, getPublicObjectUrl, hurl,
    isEmpty_false_of_ne hu0, Bool.false_eq_true, if_false, hjoin]
  rfl

/-- C6 (counterexample): with the storage URL `"/files//"`, which is set and
truthy, the fs-mode download URL contains a doubled slash between the storage
URL and the uploads path, so the result is not free of duplicated slashes. -/
theorem claim6_counterexample :
    generateDownloadUrl
      { KAN_STORAGE_DRIVER := some (jstr "fs")
        NEXT_PUBLIC_STORAGE_URL := some (jstr "/files//") }
      (jstr "b") (jstr "k") =
      .ok (.publicUrl (jstr "/files//uploads/b/k")) ∧
    hasDoubleSlash (jstr "/files//uploads/b/k") = true := by
  exact ⟨rfl, rfl⟩

/-- C6 (witness): concrete instantiation of the amended claim with storage URL
`"http://cdn"`, default uploads path, bucket `"b"` and key `"k"`. -/
theorem claim6_witness :
    generateDownloadUrl
      { KAN_STORAGE_DRIVER := some (jstr "fs")
        NEXT_PUBLIC_STORAGE_URL := some (jstr "http://cdn") }
      (jstr "b") (jstr "k") =
      .ok (.publicUrl (jstr "http://cdn" ++ '/' ::
        (jstr "uploads" ++ '/' :: (jstr "b" ++ '/' :: jstr "k")))) :=
  claim6_amended
    { KAN_STORAGE_DRIVER := some (jstr "fs")
      NEXT_PUBLIC_STORAGE_URL := some (jstr "http://cdn") }
    (jstr "b") (jstr "k") (jstr "http://cdn") (jstr "uploads")
    rfl rfl (by decide) (by decide) (by decide) (by decide) (by decide)
    (by decide) (by decide) (by decide) rfl (by decide)

theorem splitSlashAux_slashFree (s : JStr) : ∀ (acc : JStr), '/' ∉ acc →
    ∀ t ∈ splitSlashAux s acc, '/' ∉ t := by
  induction s with
  | nil =>
    intro acc hacc t ht
    simp only [splitSlashAux, List.mem_singleton] at ht
    subst ht
    simpa using hacc
  | cons c rest ih =>
    intro acc hacc t ht
    by_cases hc : c = '/'
    · rw [splitSlashAux, if_pos (by simp [hc])] at ht
      rcases List.mem_cons.mp ht with h0 | h0
      · subst h0
        simpa using hacc
      · exact ih [] (by simp) t h0
    · rw [splitSlashAux, if_neg (by simp [hc])] at ht
      exact ih (c :: acc) (by simp [List.mem_cons, hacc, Ne.symm hc]) t ht

theorem splitSlash_slashFree (s : JStr) : ∀ t ∈ splitSlash s, '/' ∉ t :=
  splitSlashAux_slashFree s [] (by simp)

theorem foldl_normStep_good (raw : List JStr) (h : ∀ s ∈ raw, '/' ∉ s) :
    ∀ acc, goodSegs acc → goodSegs (raw.foldl normStep acc) := by
  induction raw with
  | nil =>
    intro acc hacc
    exact hacc
  | cons a t ih =>
    intro acc hacc
    rw [List.foldl_cons]
    apply ih (fun s hs => h s (List.mem_cons_of_mem a hs))
    unfold normStep
    by_cases h1 : (a.isEmpty || a == jstr ".") = true
    · rw [if_pos h1]
      exact hacc
    · rw [if_neg h1]
      by_cases h2 : (a == jstr "..") = true
      · rw [if_pos h2]
        intro s hs
        exact hacc s ((List.dropLast_sublist acc).subset hs)
      · rw [if_neg h2]
        intro s hs
        rcases List.mem_append.mp hs with h3 | h3
        · exact hacc s h3
        · rw [List.mem_singleton.mp h3]
          refine ⟨?_, h a (List.mem_cons_self a t)⟩
          intro h0
          apply h1
          simp [h0]

theorem normSegs_good (raw : List JStr) (h : ∀ s ∈ raw, '/' ∉ s) :
    goodSegs (normSegs raw) :=
  foldl_normStep_good raw h [] (by intro s hs; exact absurd hs (List.not_mem_nil s))

theorem resolveFold_slashFree (args : List JStr) :
    ∀ acc, (∀ s ∈ acc, '/' ∉ s) →
    ∀ s ∈ args.foldl
      (fun acc a => if a.head? == some '/' then splitSlash a else acc ++ splitSlash a)
      acc, '/' ∉ s := by
  induction args with
  | nil =>
    intro acc hacc
    exact hacc
  | cons a t ih =>
    intro acc hacc
    rw [List.foldl_cons]
    apply ih
    intro s hs
    by_cases h1 : (a.head? == some '/') = true
    · rw [if_pos h1] at hs
      exact splitSlash_slashFree a s hs
    · rw [if_neg h1] at hs
      rcases List.mem_append.mp hs with h2 | h2
      · exact hacc s h2
      · exact splitSlash_slashFree a s h2

theorem resolveSegs_good (cwd : JStr) (args : List JStr) :
    goodSegs (resolveSegs cwd args) := by
  unfold resolveSegs
  exact normSegs_good _
    (resolveFold_slashFree args (splitSlash cwd) (splitSlash_slashFree cwd))

theorem slashSplitEq (x : JStr) : ∀ (y a b : JStr), '/' ∉ x → '/' ∉ y →
    x ++ '/' :: a = y ++ '/' :: b → x = y ∧ a = b := by
  induction x with
  | nil =>
    intro y a b _ hy h
    cases y with
    | nil =>
      simp only [List.nil_append, List.cons.injEq] at h
      exact ⟨rfl, h.2⟩
    | cons d y' =>
      simp only [List.nil_append, List.cons_append, List.cons.injEq] at h
      exact absurd (by simp [← h.1]) hy
  | cons c x' ih =>
    intro y a b hx hy h
    cases y with
    | nil =>
      simp only [List.cons_append, List.nil_append, List.cons.injEq] at h
      exact absurd (by simp [h.1]) hx
    | cons d y' =>
      simp only [List.cons_append, List.cons.injEq] at h
      have h2 := ih y' a b (fun hm => hx (List.mem_cons_of_mem c hm))
        (fun hm => hy (List.mem_cons_of_mem d hm)) h.2
      exact ⟨by rw [h.1, h2.1], h2.2⟩

theorem appendSlashPrefix {x y a b : JStr} (hx : '/' ∉ x) (hy : '/' ∉ y)
    (h : (x ++ '/' :: a) <+: (y ++ '/' :: b)) : x = y ∧ a <+: b := by
  obtain ⟨t, ht⟩ := h
  have h2 := slashSplitEq x y (a ++ t) b hx hy (by simpa [List.append_assoc] using ht)
  exact ⟨h2.1, ⟨t, h2.2⟩⟩

theorem prefixNoSlash {x a y : JStr} (hy : '/' ∉ y)
    (h : (x ++ '/' :: a) <+: y) : False := by
  obtain ⟨t, ht⟩ := h
  apply hy
  rw [← ht]
  simp

theorem joinSegs_strict_prefix (p : List JStr) : ∀ q, goodSegs p → goodSegs q →
    (joinSegs p ++ ['/']) <+: joinSegs q → p <+: q ∧ p ≠ q := by
  induction p with
  | nil =>
    intro q _ _ h
    cases q with
    | nil =>
      obtain ⟨t, ht⟩ := h
      simp [joinSegs] at ht
    | cons s q' =>
      exact ⟨List.nil_prefix, by simp⟩
  | cons a p' ih =>
    intro q hp hq h
    cases q with
    | nil =>
      obtain ⟨t, ht⟩ := h
      simp [joinSegs] at ht
    | cons b q' =>
      cases p' with
      | nil =>
        cases q' with
        | nil =>
          exact absurd (by simpa [joinSegs] using h)
            (fun h0 => prefixNoSlash (x := a) (a := []) (hq b (by simp)).2 h0)
        | cons c q'' =>
          have h2 := appendSlashPrefix (x := a) (y := b) (a := [])
            (b := joinSegs (c :: q'')) (hp a (by simp)).2 (hq b (by simp)).2
            (by simpa [joinSegs] using h)
          constructor
          · rw [h2.1]
            exact ⟨c :: q'', rfl⟩
          · simp
      | cons a2 p'' =>
        cases q' with
        | nil =>
          exfalso
          apply prefixNoSlash (x := a) (a := joinSegs (a2 :: p'') ++ ['/'])
            (hq b (by simp)).2
          simpa [joinSegs, List.append_assoc] using h
        | cons c q'' =>
          have h2 := appendSlashPrefix (x := a) (y := b)
            (a := joinSegs (a2 :: p'') ++ ['/']) (b := joinSegs (c :: q''))
            (hp a (by simp)).2 (hq b (by simp)).2
            (by simpa [joinSegs, List.append_assoc] using h)
          have h3 := ih (c :: q'')
            (fun s hs => hp s (List.mem_cons_of_mem a hs))
            (fun s hs => hq s (List.mem_cons_of_mem b hs)) h2.2
          constructor
          · rw [h2.1]
            exact List.cons_prefix_cons.mpr ⟨rfl, h3.1⟩
          · intro h0
            apply h3.2
            exact (List.cons.injEq _ _ _ _ ▸ h0).2

theorem joinSegs_inj (p : List JStr) : ∀ q, goodSegs p → goodSegs q →
    joinSegs p = joinSegs q → p = q := by
  induction p with
  | nil =>
    intro q _ hq h
    cases q with
    | nil => rfl
    | cons b q' =>
      cases q' with
      | nil => exact absurd h.symm (hq b (by simp)).1
      | cons c q'' =>
        exfalso
        exact List.cons_ne_nil '/' _ (List.append_eq_nil.mp h.symm).2
  | cons a p' ih =>
    intro q hp hq h
    cases q with
    | nil =>
      cases p' with
      | nil => exact absurd h (hp a (by simp)).1
      | cons a2 p'' =>
        exfalso
        exact List.cons_ne_nil '/' _ (List.append_eq_nil.mp h).2
    | cons b q' =>
      cases p' with
      | nil =>
        cases q' with
        | nil =>
          rw [show joinSegs [a] = a from rfl, show joinSegs [b] = b from rfl] at h
          rw [h]
        | cons c q'' =>
          exfalso
          apply (hp a (by simp)).2
          rw [show joinSegs [a] = a from rfl] at h
          rw [h]
          simp [joinSegs]
      | cons a2 p'' =>
        cases q' with
        | nil =>
          exfalso
          apply (hq b (by simp)).2
          rw [show joinSegs [b] = b from rfl] at h
          rw [← h]
          simp [joinSegs]
        | cons c q'' =>
          have h2 := slashSplitEq a b (joinSegs (a2 :: p'')) (joinSegs (c :: q''))
            (hp a (by simp)).2 (hq b (by simp)).2 (by simpa [joinSegs] using h)
          have h3 := ih (c :: q'')
            (fun s hs => hp s (List.mem_cons_of_mem a hs))
            (fun s hs => hq s (List.mem_cons_of_mem b hs)) h2.2
          rw [h2.1, h3]

theorem renderAbs_inj {p q : List JStr} (hp : goodSegs p) (hq : goodSegs q)
    (h : renderAbs p = renderAbs q) : p = q := by
  apply joinSegs_inj p q hp hq
  simpa [renderAbs] using h

theorem uploadGuard_properDesc {root fp : List JStr} (hr : goodSegs root)
    (hf : goodSegs fp) (h : uploadGuard root fp = true) : properDesc root fp := by
  unfold uploadGuard at h
  have h2 : (renderAbs root ++ ['/']) <+: renderAbs fp :=
    List.isPrefixOf_iff_prefix.mp h
  have h3 : (joinSegs root ++ ['/']) <+: joinSegs fp := by
    have h4 : ('/' :: (joinSegs root ++ ['/'])) <+: ('/' :: joinSegs fp) := by
      simpa [renderAbs] using h2
    exact (List.cons_prefix_cons.mp h4).2
  exact joinSegs_strict_prefix root fp hr hf h3

theorem uploadsRootFor_good (cwd dir : JStr) : goodSegs (uploadsRootFor cwd dir) :=
  resolveSegs_good cwd _

theorem resolveUploadPath_good (cwd : JStr) (root : List JStr) (bucket : JStr)
    (keyParts : List JStr) : goodSegs (resolveUploadPath cwd root bucket keyParts) :=
  resolveSegs_good cwd _

theorem deleteCandidate_good (cwd : JStr) (root : List JStr) (bucket key : JStr) :
    goodSegs (deleteCandidate cwd root bucket key) :=
  resolveSegs_good cwd _

theorem attachmentFetch_noPaths (u : URLRec) (fetchO : URLRec → Option Fetched) :
    accessedPaths (attachmentFetch u fetchO).1 = [] := by
  unfold attachmentFetch
  rcases fetchO u with _ | f
  · rfl
  · dsimp only
    split
    · split <;> rfl
    · rfl

theorem upload_access_safe (e : Env) (cwd : JStr) (m : Method) (parts : List JStr)
    (statO : List JStr → Except FsError FileStat) (p : List JStr)
    (hp : p ∈ accessedPaths (uploadHandler e cwd m parts statO).1) :
    properDesc (uploadsRootFor cwd (e.KAN_STORAGE_DIR.getD [])) p := by
  simp only [uploadHandler] at hp
  obtain ⟨root, hroot⟩ : ∃ r, uploadsRootFor cwd (e.KAN_STORAGE_DIR.getD []) = r :=
    ⟨_, rfl⟩
  rw [hroot] at hp ⊢
  obtain ⟨fp, hfp⟩ :
      ∃ f2, resolveUploadPath cwd root (parts.headD []) parts.tail = f2 :=
    ⟨_, rfl⟩
  rw [hfp] at hp
  have hrg : goodSegs root := hroot ▸ uploadsRootFor_good cwd _
  have hfg : goodSegs fp := hfp ▸ resolveUploadPath_good cwd root _ _
  split at hp
  · simp [accessedPaths] at hp
  split at hp
  · simp [accessedPaths] at hp
  split at hp
  · simp [accessedPaths] at hp
  split at hp
  · simp [accessedPaths] at hp
  split at hp
  · simp [accessedPaths] at hp
  split at hp
  · simp [accessedPaths] at hp
  by_cases hg : uploadGuard root fp = true
  · simp only [hg, Bool.not_true, Bool.false_eq_true, if_false] at hp
    repeat' split at hp
    all_goals
      simp only [accessedPaths, List.mem_cons, List.not_mem_nil, or_false,
        or_self] at hp
    all_goals subst hp
    all_goals exact uploadGuard_properDesc hrg hfg hg
  · simp [hg, accessedPaths] at hp

theorem attachmentLocal_access_safe (e : Env) (cwd : JStr) (dec : JStr → JStr)
    (u : URLRec) (statO : List JStr → Except FsError FileStat)
    (fetchO : URLRec → Option Fetched) (p : List JStr)
    (hp : p ∈ accessedPaths (attachmentLocal e cwd dec u statO fetchO).1) :
    properDesc (uploadsRootFor cwd (e.KAN_STORAGE_DIR.getD [])) p := by
  simp only [attachmentLocal] at hp
  obtain ⟨root, hroot⟩ : ∃ r, uploadsRootFor cwd (e.KAN_STORAGE_DIR.getD []) = r :=
    ⟨_, rfl⟩
  rw [hroot] at hp ⊢
  obtain ⟨ps, hps⟩ :
      ∃ l, ((splitSlash (u.pathname.drop
        ((normalizeUploadsPath e.NEXT_PUBLIC_UPLOADS_PATH).length + 1))).filter
          (fun q => !q.isEmpty)).map dec = l :=
    ⟨_, rfl⟩
  rw [hps] at hp
  obtain ⟨fp, hfp⟩ : ∃ f2, resolveUploadPath cwd root (ps.headD []) ps.tail = f2 :=
    ⟨_, rfl⟩
  rw [hfp] at hp
  have hrg : goodSegs root := hroot ▸ uploadsRootFor_good cwd _
  have hfg : goodSegs fp := hfp ▸ resolveUploadPath_good cwd root _ _
  split at hp
  · simp [accessedPaths] at hp
  split at hp
  case isFalse =>
    rw [attachmentFetch_noPaths] at hp
    simp at hp
  split at hp
  · simp [accessedPaths] at hp
  split at hp
  · simp [accessedPaths] at hp
  split at hp
  · simp [accessedPaths] at hp
  by_cases hg : uploadGuard root fp = true
  · simp only [hg, Bool.not_true, Bool.false_eq_true, if_false] at hp
    repeat' split at hp
    all_goals
      simp only [accessedPaths, List.mem_cons, List.not_mem_nil, or_false,
        or_self] at hp
    all_goals subst hp
    all_goals exact uploadGuard_properDesc hrg hfg hg
  · simp [hg, accessedPaths] at hp

theorem attachment_access_safe (e : Env) (cwd : JStr)
    (parser : JStr → Option URLRec) (dec : JStr → JStr) (m : Method)
    (urlParam fnParam : Option JStr)
    (statO : List JStr → Except FsError FileStat)
    (fetchO : URLRec → Option Fetched) (p : List JStr)
    (hp : p ∈ accessedPaths
      (attachmentHandler e cwd parser dec m urlParam fnParam statO fetchO).1) :
    properDesc (uploadsRootFor cwd (e.KAN_STORAGE_DIR.getD [])) p := by
  simp only [attachmentHandler] at hp
  split at hp
  · simp [accessedPaths] at hp
  split at hp
  · simp [accessedPaths] at hp
  split at hp
  · simp [accessedPaths] at hp
  split at hp
  · simp [accessedPaths] at hp
  split at hp
  · simp [accessedPaths] at hp
  split at hp
  · exact attachmentLocal_access_safe e cwd dec _ statO fetchO p hp
  · rw [attachmentFetch_noPaths] at hp
    simp at hp

theorem delete_access_within (e : Env) (cwd bucket key : JStr)
    (unlinkO : List JStr → Option FsError) (p : List JStr)
    (hp : p ∈ accessedPaths (deleteObject e cwd bucket key unlinkO).1) :
    uploadsRootFor cwd (e.KAN_STORAGE_DIR.getD []) <+: p := by
  simp only [deleteObject] at hp
  obtain ⟨root, hroot⟩ : ∃ r, uploadsRootFor cwd (e.KAN_STORAGE_DIR.getD []) = r :=
    ⟨_, rfl⟩
  rw [hroot] at hp ⊢
  obtain ⟨cand, hcand⟩ : ∃ c, deleteCandidate cwd root bucket key = c := ⟨_, rfl⟩
  rw [hcand] at hp
  have hrg : goodSegs root := hroot ▸ uploadsRootFor_good cwd _
  have hcg : goodSegs cand := hcand ▸ deleteCandidate_good cwd root bucket key
  split at hp
  · split at hp
    · simp [accessedPaths] at hp
    by_cases hg : deleteGuard root cand = true
    · simp only [hg, Bool.not_true, Bool.false_eq_true, if_false] at hp
      have hw : p = cand := by
        repeat' split at hp
        all_goals
          simp only [accessedPaths, List.mem_cons, List.not_mem_nil, or_false,
            or_self] at hp
        all_goals exact hp
      subst hw
      have hg2 : uploadGuard root p = true ∨ renderAbs p = renderAbs root := by
        simpa [deleteGuard] using hg
      rcases hg2 with h1 | h1
      · exact (uploadGuard_properDesc hrg hcg h1).1
      · rw [renderAbs_inj hcg hrg h1]
    · simp [hg, accessedPaths] at hp
  · simp [accessedPaths] at hp

/-- C1 (amended): every filesystem path the upload file server or the
attachment downloader touches is a strict descendant of the resolved uploads
root, and every path `deleteObject` unlinks in fs mode lies at or below the
uploads root (the root itself is reachable, e.g. with bucket `"."` and an
empty key, because the guard also accepts equality with the root); any
resolution strictly outside the root is rejected before filesystem access. -/
theorem claim1_amended :
    (∀ (e : Env) (cwd : JStr) (m : Method) (parts : List JStr)
      (statO : List JStr → Except FsError FileStat) (p : List JStr),
      p ∈ accessedPaths (uploadHandler e cwd m parts statO).1 →
      properDesc (uploadsRootFor cwd (e.KAN_STORAGE_DIR.getD [])) p) ∧
    (∀ (e : Env) (cwd : JStr) (parser : JStr → Option URLRec) (dec : JStr → JStr)
      (m : Method) (urlParam fnParam : Option JStr)
      (statO : List JStr → Except FsError FileStat)
      (fetchO : URLRec → Option Fetched) (p : List JStr),
      p ∈ accessedPaths
        (attachmentHandler e cwd parser dec m urlParam fnParam statO fetchO).1 →
      properDesc (uploadsRootFor cwd (e.KAN_STORAGE_DIR.getD [])) p) ∧
    (∀ (e : Env) (cwd bucket key : JStr) (unlinkO : List JStr → Option FsError)
      (p : List JStr),
      p ∈ accessedPaths (deleteObject e cwd bucket key unlinkO).1 →
      uploadsRootFor cwd (e.KAN_STORAGE_DIR.getD []) <+: p) :=
  ⟨upload_access_safe, attachment_access_safe, delete_access_within⟩

/-- C1 (counterexample): in fs mode `deleteObject` with bucket `"."` and the
empty key resolves the candidate to the uploads root itself, passes the guard,
and unlinks the root — a filesystem access whose path is not a descendant of
the uploads root, contradicting the claim. -/
theorem claim1_counterexample :
    deleteObject
      { KAN_STORAGE_DRIVER := some (jstr "fs")
        KAN_STORAGE_DIR := some (jstr "/data") }
      (jstr "/") (jstr ".") (jstr "") (fun _ => none) =
      ([Eff.unlinkAt [jstr "data", jstr "uploads"]], Except.ok ()) ∧
    uploadsRootFor (jstr "/") (jstr "/data") = [jstr "data", jstr "uploads"] ∧
    ¬ properDesc [jstr "data", jstr "uploads"] [jstr "data", jstr "uploads"] := by
  refine ⟨rfl, by decide, ?_⟩
  intro h
  exact h.2 rfl

/-- C1 (witness): a served upload at bucket `b`, key `k` stats and streams the
path `/data/uploads/b/k`, a strict descendant of the uploads root. -/
theorem claim1_witness :
    properDesc (uploadsRootFor (jstr "/") (jstr "/data"))
      [jstr "data", jstr "uploads", jstr "b", jstr "k"] :=
  claim1_amended.1
    { KAN_STORAGE_DRIVER := some (jstr "fs")
      KAN_STORAGE_DIR := some (jstr "/data") }
    (jstr "/") Method.GET [jstr "b", jstr "k"]
    (fun _ => Except.ok ⟨true, 3⟩)
    [jstr "data", jstr "uploads", jstr "b", jstr "k"] (by decide)

/-- C2 (amended): for every GET or HEAD request served by the upload file
server in fs mode with `KAN_STORAGE_DIR` set, if the key contains a `..`, `.`
or empty segment the handler returns HTTP 400 with no filesystem operation;
for other methods the handler returns 405, and under a non-fs driver 404,
regardless of the key. -/
theorem claim2_amended (e : Env) (cwd : JStr) (m : Method) (parts : List JStr)
    (statO : List JStr → Except FsError FileStat)
    (hm : m = Method.GET ∨ m = Method.HEAD)
    (hdrv : localDriver e = jstr "fs")
    (hdir : truthy e.KAN_STORAGE_DIR = true)
    (hbad : ∃ q ∈ parts.tail, q = [] ∨ q = jstr "." ∨ q = jstr "..") :
    uploadHandler e cwd m parts statO = ([], UResp.json 400) := by
  obtain ⟨q, hq, hq2⟩ := hbad
  have hany : parts.tail.any badSeg = true :=
    List.any_eq_true.mpr ⟨q, hq, by rcases hq2 with h | h | h <;> subst h <;> decide⟩
  have hm2 : (m != Method.GET && m != Method.HEAD) = false := by
    rcases hm with rfl | rfl <;> rfl
  have hdrv2 : (localDriver e != jstr "fs") = false := by simp [hdrv]
  have hdir2 : (!truthy e.KAN_STORAGE_DIR) = false := by simp [hdir]
  simp [uploadHandler, hm2, hdrv2, hdir2, hany]

/-- C2 (counterexample): a POST request whose key contains a `..` segment is
answered with 405, not 400, so the claim fails for non-GET/HEAD requests. -/
theorem claim2_counterexample :
    uploadHandler
      { KAN_STORAGE_DRIVER := some (jstr "fs")
        KAN_STORAGE_DIR := some (jstr "/data") }
      (jstr "/") Method.POST [jstr "b", jstr ".."]
      (fun _ => Except.error ⟨jstr "ENOENT"⟩) = ([], UResp.json 405) ∧
    UResp.json 405 ≠ UResp.json 400 := by
  exact ⟨rfl, by decide⟩

/-- C2 (witness): a GET request with key `..` in fs mode gets 400 and an empty
effect trace. -/
theorem claim2_witness :
    uploadHandler
      { KAN_STORAGE_DRIVER := some (jstr "fs")
        KAN_STORAGE_DIR := some (jstr "/data") }
      (jstr "/") Method.GET [jstr "b", jstr ".."]
      (fun _ => Except.error ⟨jstr "ENOENT"⟩) = ([], UResp.json 400) :=
  claim2_amended
    { KAN_STORAGE_DRIVER := some (jstr "fs")
      KAN_STORAGE_DIR := some (jstr "/data") }
    (jstr "/") Method.GET [jstr "b", jstr ".."]
    (fun _ => Except.error ⟨jstr "ENOENT"⟩)
    (Or.inl rfl) (by decide) (by decide)
    ⟨jstr "..", by decide, Or.inr (Or.inr rfl)⟩

/-- C8: in fs mode, once the candidate passes the traversal guard,
`deleteObject` returns normally when `unlink` succeeds or fails with `ENOENT`
(deleting an absent object is a no-op), and re-raises any other `unlink`
failure. -/
theorem claim8_delete_enoent (e : Env) (cwd bucket key : JStr)
    (unlinkO : List JStr → Option FsError) (cand : List JStr)
    (hdrv : getStorageDriver e = jstr "fs")
    (hdir : truthy e.KAN_STORAGE_DIR = true)
    (hcand : deleteCandidate cwd (uploadsRootFor cwd (e.KAN_STORAGE_DIR.getD []))
      bucket key = cand)
    (hguard : deleteGuard (uploadsRootFor cwd (e.KAN_STORAGE_DIR.getD [])) cand
      = true) :
    (unlinkO cand = none →
      deleteObject e cwd bucket key unlinkO =
        ([Eff.unlinkAt cand], Except.ok ())) ∧
    (∀ err, unlinkO cand = some err → err.code = jstr "ENOENT" →
      deleteObject e cwd bucket key unlinkO =
        ([Eff.unlinkAt cand], Except.ok ())) ∧
    (∀ err, unlinkO cand = some err → err.code ≠ jstr "ENOENT" →
      deleteObject e cwd bucket key unlinkO =
        ([Eff.unlinkAt cand], Except.error (DelErr.unlinkFailed err))) := by
  have hd2 : (getStorageDriver e == jstr "fs") = true := by simp [hdrv]
  have hdir2 : (!truthy e.KAN_STORAGE_DIR) = false := by simp [hdir]
  have hg2 : (!deleteGuard (uploadsRootFor cwd (e.KAN_STORAGE_DIR.getD [])) cand)
      = false := by simp [hguard]
  refine ⟨?_, ?_, ?_⟩
  · intro h
    simp only [deleteObject, hd2, if_true, hcand, hdir2, Bool.false_eq_true,
      if_false, hg2, h]
  · intro err h hcode
    have hc2 : (err.code == jstr "ENOENT") = true := by simp [hcode]
    simp only [deleteObject, hd2, if_true, hcand, hdir2, Bool.false_eq_true,
      if_false, hg2, h, hc2]
  · intro err h hcode
    have hc2 : (err.code == jstr "ENOENT") = false := by simp [hcode]
    simp only [deleteObject, hd2, if_true, hcand, hdir2, Bool.false_eq_true,
      if_false, hg2, h, hc2, Bool.true_eq_false]

/-- C9 (amended): for every GET request whose url parameter parses to an
http/https URL whose origin is missing from the allow-list derived from
`NEXT_PUBLIC_STORAGE_URL` and `NEXT_PUBLIC_BASE_URL`, the attachment
downloader returns HTTP 400 with no upstream fetch and no filesystem access —
provided the allow-list is nonempty; when neither variable yields a valid
origin, the check is skipped and the handler proceeds to fetch. -/
theorem claim9_amended (e : Env) (cwd : JStr) (parser : JStr → Option URLRec)
    (dec : JStr → JStr) (urlStr : JStr) (fnParam : Option JStr)
    (statO : List JStr → Except FsError FileStat)
    (fetchO : URLRec → Option Fetched) (u : URLRec)
    (hparse : parser urlStr = some u)
    (hproto : u.protocol = jstr "http:" ∨ u.protocol = jstr "https:")
    (hne : getAllowedOrigins e parser ≠ [])
    (hmem : u.origin ∉ getAllowedOrigins e parser) :
    attachmentHandler e cwd parser dec Method.GET (some urlStr) fnParam statO
      fetchO = ([], AResp.json 400) := by
  have hproto2 : (u.protocol != jstr "http:" && u.protocol != jstr "https:")
      = false := by
    rcases hproto with h | h <;> simp [h]
  have hne2 : (getAllowedOrigins e parser).isEmpty = false :=
    isEmpty_false_of_ne hne
  have hcon : (getAllowedOrigins e parser).contains u.origin = false := by
    rcases hc : (getAllowedOrigins e parser).contains u.origin with _ | _
    · rfl
    · exact absurd (List.elem_iff.mp hc) hmem
  simp [attachmentHandler, hparse, hproto2, hne2, hcon]
  intro h0
  exact absurd h0 hmem

/-- C9 (counterexample): with both `NEXT_PUBLIC_STORAGE_URL` and
`NEXT_PUBLIC_BASE_URL` unset the allow-list is empty, so a URL whose origin
belongs to no allow-list entry is nevertheless fetched upstream instead of
rejected with 400. -/
theorem claim9_counterexample :
    attachmentHandler { KAN_STORAGE_DRIVER := some (jstr "s3") } (jstr "/")
      (fun _ => some ⟨jstr "http:", jstr "http://evil.com", jstr "/x"⟩) id
      Method.GET (some (jstr "http://evil.com/x")) none
      (fun _ => Except.error ⟨jstr "ENOENT"⟩)
      (fun _ => some ⟨200, true⟩) =
      ([Eff.fetchTo ⟨jstr "http:", jstr "http://evil.com", jstr "/x"⟩],
        AResp.upstreamStream) ∧
    getAllowedOrigins { KAN_STORAGE_DRIVER := some (jstr "s3") }
      (fun _ => some ⟨jstr "http:", jstr "http://evil.com", jstr "/x"⟩) = [] := by
  exact ⟨rfl, rfl⟩

/-- C9 (witness): with a base URL configured, a request for a foreign origin
is rejected with 400 and an empty effect trace. -/
theorem claim9_witness :
    attachmentHandler { NEXT_PUBLIC_BASE_URL := some (jstr "http://app.local") }
      (jstr "/")
      (fun s => if s == jstr "http://app.local"
        then some ⟨jstr "http:", jstr "http://app.local", jstr "/"⟩
        else some ⟨jstr "http:", jstr "http://evil.com", jstr "/x"⟩) id
      Method.GET (some (jstr "http://evil.com/x")) none
      (fun _ => Except.error ⟨jstr "ENOENT"⟩)
      (fun _ => some ⟨200, true⟩) = ([], AResp.json 400) :=
  claim9_amended { NEXT_PUBLIC_BASE_URL := some (jstr "http://app.local") }
    (jstr "/")
    (fun s => if s == jstr "http://app.local"
      then some ⟨jstr "http:", jstr "http://app.local", jstr "/"⟩
      else some ⟨jstr "http:", jstr "http://evil.com", jstr "/x"⟩) id
    (jstr "http://evil.com/x") none
    (fun _ => Except.error ⟨jstr "ENOENT"⟩)
    (fun _ => some ⟨200, true⟩)
    ⟨jstr "http:", jstr "http://evil.com", jstr "/x"⟩
    (by decide) (Or.inl rfl) (by decide) (by decide)

/-- C10: when the attachment downloader reaches the remote-fetch fallback and
the upstream response is non-OK (status outside 200-299), the handler responds
with exactly the upstream status code. -/
theorem claim10_passthrough (e : Env) (cwd : JStr) (parser : JStr → Option URLRec)
    (dec : JStr → JStr) (urlStr : JStr) (fnParam : Option JStr)
    (statO : List JStr → Except FsError FileStat)
    (fetchO : URLRec → Option Fetched) (u : URLRec) (f : Fetched)
    (hparse : parser urlStr = some u)
    (hproto : u.protocol = jstr "http:" ∨ u.protocol = jstr "https:")
    (hallow : getAllowedOrigins e parser = [] ∨
      u.origin ∈ getAllowedOrigins e parser)
    (hnofs : localDriver e ≠ jstr "fs" ∨
      (truthy e.KAN_STORAGE_DIR = true ∧
        (!(normalizeUploadsPath e.NEXT_PUBLIC_UPLOADS_PATH).isEmpty &&
          ((normalizeUploadsPath e.NEXT_PUBLIC_UPLOADS_PATH) ++ ['/']).isPrefixOf
            u.pathname) = false))
    (hfetch : fetchO u = some f) (hnok : ¬(200 ≤ f.status ∧ f.status < 300)) :
    attachmentHandler e cwd parser dec Method.GET (some urlStr) fnParam statO
      fetchO = ([Eff.fetchTo u], AResp.json f.status) := by
  have hproto2 : (u.protocol != jstr "http:" && u.protocol != jstr "https:")
      = false := by
    rcases hproto with h | h <;> simp [h]
  have horig : (!(getAllowedOrigins e parser).isEmpty &&
      !(getAllowedOrigins e parser).contains u.origin) = false := by
    rcases hallow with h | h
    · simp [h]
    · have hc : (getAllowedOrigins e parser).contains u.origin = true :=
        List.elem_iff.mpr h
      simp only [hc, Bool.not_true, Bool.and_false]
  have hfetch2 : attachmentFetch u fetchO = ([Eff.fetchTo u], AResp.json f.status) := by
    simp only [attachmentFetch, hfetch]
    rw [if_neg hnok]
  have hmth : (Method.GET != Method.GET) = false := rfl
  rcases hnofs with h | ⟨hdir, hbranch⟩
  · have hfs : (localDriver e == jstr "fs") = false := by simp [h]
    simp only [attachmentHandler, hmth, Bool.false_eq_true, if_false, hparse,
      hproto2, horig, hfs, hfetch2]
  · by_cases hfs : (localDriver e == jstr "fs") = true
    · have hdir2 : (!truthy e.KAN_STORAGE_DIR) = false := by simp [hdir]
      simp only [attachmentHandler, attachmentLocal, hmth, Bool.false_eq_true,
        if_false, hparse, hproto2, horig, hfs, if_true, hdir2, hbranch, hfetch2]
    · have hfs2 : (localDriver e == jstr "fs") = false := by
        rcases hb : (localDriver e == jstr "fs") with _ | _
        · rfl
        · exact absurd hb hfs
      simp only [attachmentHandler, hmth, Bool.false_eq_true, if_false, hparse,
        hproto2, horig, hfs2, hfetch2]

/-- C10 (witness): an s3-mode request whose upstream answers 503 is answered
with exactly 503. -/
theorem claim10_witness :
    attachmentHandler { KAN_STORAGE_DRIVER := some (jstr "s3") } (jstr "/")
      (fun _ => some ⟨jstr "https:", jstr "https://cdn.example.com", jstr "/u/b"⟩)
      id Method.GET (some (jstr "https://cdn.example.com/u/b")) none
      (fun _ => Except.error ⟨jstr "ENOENT"⟩) (fun _ => some ⟨503, true⟩) =
      ([Eff.fetchTo ⟨jstr "https:", jstr "https://cdn.example.com", jstr "/u/b"⟩],
        AResp.json 503) :=
  claim10_passthrough { KAN_STORAGE_DRIVER := some (jstr "s3") } (jstr "/")
    (fun _ => some ⟨jstr "https:", jstr "https://cdn.example.com", jstr "/u/b"⟩)
    id (jstr "https://cdn.example.com/u/b") none
    (fun _ => Except.error ⟨jstr "ENOENT"⟩) (fun _ => some ⟨503, true⟩)
    ⟨jstr "https:", jstr "https://cdn.example.com", jstr "/u/b"⟩ ⟨503, true⟩
    rfl (Or.inr rfl) (Or.inl rfl) (Or.inl (by decide)) rfl (by decide)

/-- C8 (witness): deleting an absent object (`unlink` reports `ENOENT`)
returns normally after the single unlink attempt. -/
theorem claim8_witness :
    deleteObject
      { KAN_STORAGE_DRIVER := some (jstr "fs")
        KAN_STORAGE_DIR := some (jstr "/data") }
      (jstr "/") (jstr "b") (jstr "missing.txt")
      (fun _ => some ⟨jstr "ENOENT"⟩) =
      ([Eff.unlinkAt [jstr "data", jstr "uploads", jstr "b", jstr "missing.txt"]],
        Except.ok ()) :=
  (claim8_delete_enoent
    { KAN_STORAGE_DRIVER := some (jstr "fs")
      KAN_STORAGE_DIR := some (jstr "/data") }
    (jstr "/") (jstr "b") (jstr "missing.txt")
    (fun _ => some ⟨jstr "ENOENT"⟩)
    [jstr "data", jstr "uploads", jstr "b", jstr "missing.txt"]
    (by decide) (by decide) (by decide) (by decide)).2.1
    ⟨jstr "ENOENT"⟩ rfl rfl
